import Mathlib

/-!
Verification of the AnkiRest spaced-repetition core against its specification.

The Python sources are shallowly embedded: SQLite tables become lists of
records, the injected clock values (seconds, days since epoch, millisecond
ids, simulated elapsed time) become explicit integer parameters, and Python
float arithmetic on ease factors is modelled exactly over the rationals.
`int(...)` on a float (truncation toward zero) becomes `pyInt`, and Python's
banker-rounding `round` becomes `pyRound`.
-/

namespace AnkiRest

/-- Python `int(x)` applied to a rational: truncation toward zero. -/
def pyInt (q : ℚ) : ℤ := if 0 ≤ q then ⌊q⌋ else ⌈q⌉

/-- Python `round(x)` on a rational: round half to even. -/
def pyRound (q : ℚ) : ℤ :=
  if q - ⌊q⌋ < 1/2 then ⌊q⌋
  else if 1/2 < q - ⌊q⌋ then ⌊q⌋ + 1
  else if Even ⌊q⌋ then ⌊q⌋ else ⌊q⌋ + 1

/-- A row of the `cards` table (review_anki_schema.py / review_and_export_v2.py). -/
structure Card where
  id : ℤ
  nid : ℤ
  did : ℤ
  ord : ℤ
  mod : ℤ
  usn : ℤ
  type : ℤ
  queue : ℤ
  due : ℤ
  ivl : ℤ
  factor : ℤ
  reps : ℤ
  lapses : ℤ
  left : ℤ
  odue : ℤ
  odid : ℤ
  flags : ℤ
  data : String
deriving DecidableEq, Repr

/-- A row of the `notes` table. -/
structure Note where
  id : ℤ
  guid : String
  mid : ℤ
  mod : ℤ
  usn : ℤ
  tags : String
  flds : String
  sfld : String
  csum : ℤ
  flags : ℤ
  data : String
deriving DecidableEq, Repr

/-- A row of the `revlog` table. -/
structure RevlogEntry where
  id : ℤ
  cid : ℤ
  usn : ℤ
  ease : ℤ
  ivl : ℤ
  lastIvl : ℤ
  factor : ℤ
  time : ℤ
  type : ℤ
deriving DecidableEq, Repr

/-- The fail-branch ease `max(1.3, ease_factor - 0.2)` of `apply_sm2_algorithm`. -/
def failEase (easeFactor : ℚ) : ℚ := max (13/10) (easeFactor - 2/10)

/-- The pass-branch ease
`max(1.3, ease_factor + (0.1 - (5 - quality) * (0.08 + (5 - quality) * 0.02)))`
of `apply_sm2_algorithm`. -/
def passEase (quality : ℤ) (easeFactor : ℚ) : ℚ :=
  max (13/10)
    (easeFactor + (1/10 - ((5 - quality : ℤ) : ℚ) * (8/100 + ((5 - quality : ℤ) : ℚ) * 2/100)))

/-- The in-memory update performed by `AnkiSM2.apply_sm2_algorithm` on the fetched
card row, together with the revlog row it inserts.  `currentTime` is
`int(time.time())`, `today` is `days_since_epoch(datetime.now())`, `reviewId` is
`int(time.time() * 1000)` and `elapsed` is the simulated `random.randint(3000, 15000)`,
all injected as parameters. -/
def sm2Update (currentTime today reviewId elapsed quality : ℤ) (c : Card) :
    Card × RevlogEntry :=
  let easeFactor : ℚ := (c.factor : ℚ) / 1000
  if quality < 3 then
    let newInterval : ℤ := 1
    let nef := failEase easeFactor
    ({ c with type := 1, queue := 1, due := currentTime + newInterval * 60,
              ivl := newInterval, factor := pyInt (nef * 1000),
              lapses := c.lapses + 1, left := 3, mod := currentTime },
     { id := reviewId, cid := c.id, usn := -1, ease := quality + 1, ivl := newInterval,
       lastIvl := c.ivl, factor := pyInt (nef * 1000), time := elapsed, type := 0 })
  else
    let nef := passEase quality easeFactor
    let newInterval : ℤ :=
      if c.ivl = 0 then 1
      else if c.ivl = 1 then 6
      else pyInt ((c.ivl : ℚ) * nef)
    ({ c with type := 2, queue := 2, due := today + newInterval,
              ivl := newInterval, factor := pyInt (nef * 1000),
              reps := c.reps + 1, left := 0, mod := currentTime },
     { id := reviewId, cid := c.id, usn := -1, ease := quality + 1, ivl := newInterval,
       lastIvl := c.ivl, factor := pyInt (nef * 1000), time := elapsed, type := 1 })

/-- A field descriptor inside a model document (`flds` entries of `add_model`). -/
structure Fld where
  name : String
  ord : ℕ
  sticky : Bool
  rtl : Bool
  font : String
  size : ℕ
  media : List String
deriving DecidableEq, Repr

/-- A card-template descriptor inside a model document (`tmpls` entries of `add_model`). -/
structure Tmpl where
  name : String
  ord : ℕ
  qfmt : String
  afmt : String
  bqfmt : String
  bafmt : String
  did : Option ℤ
  bfont : String
  bsize : ℕ
deriving DecidableEq, Repr

/-- The template triple passed into `add_model`. -/
structure TmplIn where
  name : String
  qfmt : String
  afmt : String
deriving DecidableEq, Repr

/-- The fixed `css` string of every model document. -/
def defaultCss : String :=
  ".card \x7b\n font-family: arial;\n font-size: 20px;\n text-align: center;\n color: black;\n background-color: white;\n\x7d\n\n.cloze \x7b\n font-weight: bold;\n color: blue;\n\x7d"

/-- The fixed `latexPre` string of every model document. -/
def defaultLatexPre : String :=
  "\\documentclass[12pt]\x7barticle\x7d\n\\special\x7bpapersize=3in,5in\x7d\n\\usepackage[utf8]\x7binputenc\x7d\n\\usepackage\x7bamssymb,amsmath\x7d\n\\pagestyle\x7bempty\x7d\n\\setlength\x7b\\parindent\x7d\x7b0in\x7d\n\\begin\x7bdocument\x7d\n"

/-- The fixed `latexPost` string of every model document. -/
def defaultLatexPost : String := "\\end\x7bdocument\x7d"

/-- A model ("note type") document stored in the collection's `models` column. -/
structure Model where
  id : ℤ
  name : String
  type : ℤ
  mod : ℤ
  usn : ℤ
  sortf : ℕ
  did : ℤ
  tmpls : List Tmpl
  flds : List Fld
  css : String
  latexPre : String
  latexPost : String
  req : List (ℕ × String × List ℕ)
deriving DecidableEq, Repr

/-- The singleton `col` row.  The `decks`, `conf`, `dconf` and `tags` JSON blobs
are kept opaque as strings; only the `models` document map is structured, since
`add_model` manipulates it. -/
structure Col where
  crt : ℤ
  mod : ℤ
  scm : ℤ
  ver : ℤ
  dty : ℤ
  usn : ℤ
  ls : ℤ
  conf : String
  models : List (ℤ × Model)
  decks : String
  dconf : String
  tags : String
deriving DecidableEq, Repr

/-- The whole SQLite database state. -/
structure Db where
  col : Col
  notes : List Note
  cards : List Card
  revlog : List RevlogEntry
deriving DecidableEq, Repr

/-- Error taxonomy of `apply_sm2_algorithm`: the two `ValueError` raises. -/
inductive SchedErr where
  | invalidRating
  | notFound
deriving DecidableEq, Repr

/-- The fetch `SELECT ... FROM cards WHERE id = ?` followed by `fetchone()`. -/
def findCard (cards : List Card) (cardId : ℤ) : Option Card :=
  cards.find? (fun c => c.id == cardId)

/-- The `UPDATE cards SET type, queue, due, ivl, factor, reps, lapses, left, mod`
statement applied to one row: only those nine columns change. -/
def applySchedCols (src x : Card) : Card :=
  { x with type := src.type, queue := src.queue, due := src.due, ivl := src.ivl,
           factor := src.factor, reps := src.reps, lapses := src.lapses,
           left := src.left, mod := src.mod }

/-- The whole `AnkiSM2.apply_sm2_algorithm` at the database level.  The rating check and
the card fetch happen before any write, so on either error path the returned
state is the input state unchanged. -/
def applySm2 (currentTime today reviewId elapsed cardId quality : ℤ) (db : Db) :
    Db × Option SchedErr :=
  if quality < 0 ∨ 5 < quality then (db, some .invalidRating)
  else
    match findCard db.cards cardId with
    | none => (db, some .notFound)
    | some c =>
      let u := sm2Update currentTime today reviewId elapsed quality c
      ({ db with
          cards := db.cards.map (fun x => if x.id == cardId then applySchedCols u.1 x else x),
          revlog := db.revlog ++ [u.2] }, none)

/-- The Anki field separator `\x1f`. -/
def fieldSep : Char := Char.ofNat 31

/-- Python `str.split(sep)` on a character list: no merging of adjacent
separators, and the empty string splits to `[""]`. -/
def pySplit (sep : Char) : List Char → List (List Char)
  | [] => [[]]
  | c :: rest =>
    match pySplit sep rest with
    | [] => [[]]
    | grp :: gs => if c = sep then [] :: grp :: gs else (c :: grp) :: gs

/-- One element of the result of `get_cards_due_today`. -/
structure DueCard where
  id : ℤ
  question : List Char
  answer : List Char
deriving DecidableEq, Repr

/-- The SQL join of `get_cards_due_today`:
`SELECT c.id, n.flds FROM cards c JOIN notes n ON c.nid = n.id
 WHERE (c.queue = 0) OR (c.queue = 2 AND c.due <= today)`. -/
def dueRows (today : ℤ) (db : Db) : List (ℤ × String) :=
  db.cards.flatMap (fun c =>
    if c.queue = 0 ∨ (c.queue = 2 ∧ c.due ≤ today) then
      (db.notes.filter (fun n => n.id == c.nid)).map (fun n => (c.id, n.flds))
    else [])

/-- The query `AnkiSM2.get_cards_due_today` (identical in review_anki_schema.py and
review_and_export_v2.py): the join above, then each `flds` blob is split on the
separator and rows with fewer than two parts are dropped. -/
def get_cards_due_today (today : ℤ) (db : Db) : List DueCard :=
  (dueRows today db).filterMap (fun r =>
    match pySplit fieldSep r.2.data with
    | q :: a :: _ => some ⟨r.1, q, a⟩
    | _ => none)

/-- The opening brace character. -/
def obrace : Char := Char.ofNat 123

/-- The closing brace character. -/
def cbrace : Char := Char.ofNat 125

/-- The placeholder `\x7b\x7bFieldName\x7d\x7d` built by `add_model`'s
requirement scan (the Python concatenation of two opening braces, the field
name, and two closing braces). -/
def mustache (field : String) : List Char :=
  obrace :: obrace :: (field.data ++ [cbrace, cbrace])

/-- Whether the second list is an initial segment of the first. -/
def leadsWith : List Char → List Char → Bool
  | _, [] => true
  | [], _ :: _ => false
  | a :: as, b :: bs => a == b && leadsWith as bs

/-- Python's substring test `needle in hay`. -/
def occursIn (needle : List Char) : List Char → Bool
  | [] => needle.isEmpty
  | c :: rest => leadsWith (c :: rest) needle || occursIn needle rest

/-- The `fields_required` scan of `add_model`: ordinals of fields whose
placeholder occurs in the template's question or answer format. -/
def reqFor (fields : List String) (t : TmplIn) : List ℕ :=
  ((fields.enum.filter (fun p =>
      occursIn (mustache p.2) t.qfmt.data || occursIn (mustache p.2) t.afmt.data)).map
    (fun p => p.1))

/-- The model document built by `add_model` (identical in
review_and_export_v2.py and anki-flashcard-app.py); `nowMs` is
`int(time.time() * 1000)` and `nowS` is `int(time.time())`. -/
def buildModel (nowMs nowS : ℤ) (name : String) (fields : List String)
    (templates : List TmplIn) : Model :=
  { id := nowMs, name := name, type := 0, mod := nowS, usn := 0, sortf := 0, did := 1,
    tmpls := templates.enum.map (fun p =>
      { name := p.2.name, ord := p.1, qfmt := p.2.qfmt, afmt := p.2.afmt,
        bqfmt := "", bafmt := "", did := none, bfont := "", bsize := 0 }),
    flds := fields.enum.map (fun p =>
      { name := p.2, ord := p.1, sticky := false, rtl := false,
        font := "Arial", size := 20, media := [] }),
    css := defaultCss, latexPre := defaultLatexPre, latexPost := defaultLatexPost,
    req := templates.enum.map (fun p => (p.1, "any", reqFor fields p.2)) }

/-- Python dict assignment `models[str(model_id)] = model`: replace in place if
the key exists, otherwise append. -/
def dictInsert (k : ℤ) (v : Model) : List (ℤ × Model) → List (ℤ × Model)
  | [] => [(k, v)]
  | (k', v') :: rest => if k' = k then (k, v) :: rest else (k', v') :: dictInsert k v rest

/-- Python dict lookup by key. -/
def dictFind (k : ℤ) : List (ℤ × Model) → Option Model
  | [] => none
  | (k', v) :: rest => if k' = k then some v else dictFind k rest

/-- The operation `add_model`: builds the model document keyed by the millisecond timestamp
and writes the updated `models` map and `mod` time back into the `col` row. -/
def add_model (nowMs nowS : ℤ) (name : String) (fields : List String)
    (templates : List TmplIn) (col : Col) : ℤ × Col :=
  let m := buildModel nowMs nowS name fields templates
  (nowMs, { col with models := dictInsert nowMs m col.models, mod := nowS })

/-- The content of one archive entry produced by the exporters. -/
inductive ZEntry where
  | dbFile (content : String)
  | manifest (mapping : List (String × String))
  | media (content : List ℕ)
deriving DecidableEq, Repr

/-- The exporter `AnkiFlashcardApp.export_apkg`: the staged collection copy, the manifest
mapping each zero-based stringified index to the original filename, and one
entry per `add_media` file named by that index. -/
def export_apkg (dbBytes : String) (mediaFiles : List (String × List ℕ)) :
    List (String × ZEntry) :=
  [("collection.anki2", ZEntry.dbFile dbBytes),
   ("media", ZEntry.manifest (mediaFiles.enum.map (fun p => (toString p.1, p.2.1))))] ++
  mediaFiles.enum.map (fun p => (toString p.1, ZEntry.media p.2.2))

/-- The rows of the database's `media` table kept by `export_to_apkg`:
`if data and filename` skips empty blobs and empty names. -/
def keptMediaRows (mediaRows : List (ℕ × List ℕ × String)) : List (ℕ × List ℕ × String) :=
  mediaRows.filter (fun r => !r.2.1.isEmpty && !(r.2.2 == ""))

/-- The exporter `AnkiSM2.export_to_apkg` (review_and_export_v2.py): stages the collection
copy, the manifest and one file per kept media row (named by the row id) in one
directory, writes the collection and manifest entries, then loops over every
staged file and writes each of them again (the staging directory is the media
directory), in creation order. -/
def export_to_apkg (dbBytes : String) (mediaRows : List (ℕ × List ℕ × String)) :
    List (String × ZEntry) :=
  let manifest := (keptMediaRows mediaRows).map (fun r => (toString r.1, r.2.2))
  let staged : List (String × ZEntry) :=
    ("collection.anki2", ZEntry.dbFile dbBytes) ::
    ("media", ZEntry.manifest manifest) ::
    (keptMediaRows mediaRows).map (fun r => (toString r.1, ZEntry.media r.2.1))
  [("collection.anki2", ZEntry.dbFile dbBytes),
   ("media", ZEntry.manifest manifest)] ++ staged

/-- The card row of the Flask server's `cards` table
(basketball_flashcards_server.py). -/
structure SrvCard where
  ease_factor : ℚ
  interval : ℤ
  repetitions : ℤ
deriving DecidableEq, Repr

/-- The function `calculate_next_review` from basketball_flashcards_server.py: returns the
new interval and the new ease factor (the due date is now + interval days). -/
def calculate_next_review (card : SrvCard) (difficulty : ℤ) : ℤ × ℚ :=
  if difficulty < 3 then
    (1, max (13/10) (card.ease_factor - 2/10))
  else
    let interval : ℤ :=
      if card.repetitions = 0 then 1
      else if card.repetitions = 1 then 6
      else pyRound ((card.interval : ℚ) * card.ease_factor)
    let ef := card.ease_factor +
      (1/10 - ((5 - difficulty : ℤ) : ℚ) * (8/100 + ((5 - difficulty : ℤ) : ℚ) * 2/100))
    (interval, max (13/10) ef)

/-! Concrete states used to instantiate the theorems below. -/

/-- A review-queue card at interval 2 with the default ease 2500. -/
def cIvl2 : Card :=
  { id := 1, nid := 1, did := 1, ord := 0, mod := 0, usn := -1, type := 2, queue := 2,
    due := 0, ivl := 2, factor := 2500, reps := 3, lapses := 0, left := 0,
    odue := 0, odid := 0, flags := 0, data := "" }

/-- An empty collection row. -/
def colEmpty : Col :=
  { crt := 0, mod := 0, scm := 0, ver := 11, dty := 0, usn := 0, ls := 0,
    conf := "", models := [], decks := "", dconf := "", tags := "" }

/-- A note whose field blob contains no `\x1f` separator (a single field). -/
def noteNoSep : Note :=
  { id := 1, guid := "1", mid := 1, mod := 0, usn := -1, tags := "",
    flds := "only one field", sfld := "only one field", csum := 0, flags := 0, data := "" }

/-- A freshly created card in the new queue, owned by note 1. -/
def cardNew : Card :=
  { id := 1, nid := 1, did := 1, ord := 0, mod := 0, usn := -1, type := 0, queue := 0,
    due := 5, ivl := 0, factor := 2500, reps := 0, lapses := 0, left := 0,
    odue := 0, odid := 0, flags := 0, data := "" }

/-- A database holding the separator-free note and its new card. -/
def dbNoSep : Db := { col := colEmpty, notes := [noteNoSep], cards := [cardNew], revlog := [] }

/-- The sample template of the sources, `\x7b\x7bQuestion\x7d\x7d` on the front. -/
def tmplQA : TmplIn :=
  { name := "Card 1", qfmt := "\x7b\x7bQuestion\x7d\x7d",
    afmt := "\x7b\x7bFrontSide\x7d\x7d\n\n<hr id=answer>\n\n\x7b\x7bAnswer\x7d\x7d" }

/-- First `add_model` call at millisecond timestamp 100. -/
def addFirst : ℤ × Col := add_model 100 0 "M1" ["Question", "Answer"] [tmplQA] colEmpty

/-- Second `add_model` call within the same millisecond (timestamp 100 again). -/
def addSecond : ℤ × Col := add_model 100 0 "M2" ["Question", "Answer"] [tmplQA] addFirst.2

/-- A media table holding exactly one row: id 0, one data byte, name image.jpg. -/
def oneMediaRow : List (ℕ × List ℕ × String) := [(0, [1], "image.jpg")]

/-! Helper lemmas. -/

/-- Truncation is the identity on integers. -/
theorem pyInt_intCast (n : ℤ) : pyInt (n : ℚ) = n := by
  unfold pyInt
  split <;> simp

/-- A nonnegative integer lower bound survives truncation. -/
theorem le_pyInt {n : ℤ} {x : ℚ} (hn : 0 ≤ n) (h : (n : ℚ) ≤ x) : n ≤ pyInt x := by
  have hx : 0 ≤ x := le_trans (by exact_mod_cast hn) h
  unfold pyInt
  rw [if_pos hx]
  exact Int.le_floor.mpr h

/-- The fail-branch ease, scaled back to thousandths, is exact integer
arithmetic: `int(max(1.3, f/1000 - 0.2) * 1000) = max 1300 (f - 200)`. -/
theorem failEase_scaled (f : ℤ) :
    pyInt (failEase ((f : ℚ) / 1000) * 1000) = max 1300 (f - 200) := by
  have h : failEase ((f : ℚ) / 1000) * 1000 = ((max 1300 (f - 200) : ℤ) : ℚ) := by
    unfold failEase
    rw [max_mul_of_nonneg _ _ (by norm_num : (0:ℚ) ≤ 1000), Int.cast_max]
    push_cast
    congr 1 <;> ring
  rw [h, pyInt_intCast]

/-- Lookup after inserting the same key finds the inserted value. -/
theorem dictFind_dictInsert_self (k : ℤ) (v : Model) (m : List (ℤ × Model)) :
    dictFind k (dictInsert k v m) = some v := by
  induction m with
  | nil => simp [dictInsert, dictFind]
  | cons p rest ih =>
    obtain ⟨k', v'⟩ := p
    by_cases h : k' = k <;> simp [dictInsert, dictFind, h, ih]

/-- Lookup at a different key is unaffected by an insert. -/
theorem dictFind_dictInsert_ne (k k' : ℤ) (hkk : k ≠ k') (v : Model) (m : List (ℤ × Model)) :
    dictFind k (dictInsert k' v m) = dictFind k m := by
  have hk'k : ¬ k' = k := fun h => hkk h.symm
  induction m with
  | nil => simp [dictInsert, dictFind, hk'k]
  | cons p rest ih =>
    obtain ⟨k0, v0⟩ := p
    by_cases h : k0 = k'
    · subst h
      simp [dictInsert, dictFind, hk'k]
    · by_cases h2 : k0 = k
      · subst h2
        simp [dictInsert, dictFind, h]
      · simp [dictInsert, dictFind, h, h2, ih]

/-! Claim theorems. -/

/-- C1 counterexample: at interval 2, ease 2500 thousandths, quality 3, the new
ease factor is 2.36 (stored 2360) and the code stores interval
`int(2 * 2.36) = 4`, while round(old interval × new ease) = round(4.72) = 5.
So the pass branch truncates instead of rounding as the claim states. -/
theorem sm2_pass_interval_truncates_cex :
    (sm2Update 0 0 0 0 3 cIvl2).1.factor = 2360 ∧
    (sm2Update 0 0 0 0 3 cIvl2).1.ivl = 4 ∧
    round ((cIvl2.ivl : ℚ) * ((2360 : ℚ) / 1000)) = 5 ∧ (4 : ℤ) ≠ 5 := by
  refine ⟨?_, ?_, ?_, by decide⟩
  · norm_num [sm2Update, cIvl2, passEase, pyInt]
  · norm_num [sm2Update, cIvl2, passEase, pyInt]
  · norm_num [cIvl2, round_eq]

/-- C1 (amended): for quality in [3,5] the pass branch of
`apply_sm2_algorithm` sets the new interval to 1 when the old interval is 0,
to 6 when it is 1, and otherwise to `int(old interval × new ease factor)` —
truncation toward zero, not round — with the new ease factor
max(1.3, old + (0.1 − (5−q)(0.08 + (5−q)0.02))) stored in thousandths; the
Flask-server variant `calculate_next_review` instead selects on the repetition
count and, from the third repetition on, applies round to
old interval × the pre-update ease factor. -/
theorem sm2_pass_interval (t td rid el q : ℤ) (c : Card) (h3 : 3 ≤ q) (h5 : q ≤ 5) :
    (sm2Update t td rid el q c).1.ivl =
      (if c.ivl = 0 then 1
       else if c.ivl = 1 then 6
       else pyInt ((c.ivl : ℚ) * passEase q ((c.factor : ℚ) / 1000))) ∧
    (sm2Update t td rid el q c).1.factor =
      pyInt (passEase q ((c.factor : ℚ) / 1000) * 1000) ∧
    (∀ s : SrvCard, 2 ≤ s.repetitions →
      (calculate_next_review s q).1 = pyRound ((s.interval : ℚ) * s.ease_factor)) := by
  have hq : ¬ q < 3 := by omega
  refine ⟨by simp [sm2Update, hq], by simp [sm2Update, hq], ?_⟩
  intro s hs
  have h0 : ¬ s.repetitions = 0 := by omega
  have h1 : ¬ s.repetitions = 1 := by omega
  simp [calculate_next_review, hq, h0, h1]

/-- C1 witness: instantiating the amended theorem at quality 4 on the concrete
interval-2 card and a concrete server card. -/
theorem sm2_pass_interval_witness :
    (3 : ℤ) ≤ 4 ∧ (4 : ℤ) ≤ 5 ∧
    ((sm2Update 0 0 0 0 4 cIvl2).1.ivl =
      (if cIvl2.ivl = 0 then 1
       else if cIvl2.ivl = 1 then 6
       else pyInt ((cIvl2.ivl : ℚ) * passEase 4 ((cIvl2.factor : ℚ) / 1000))) ∧
    (sm2Update 0 0 0 0 4 cIvl2).1.factor =
      pyInt (passEase 4 ((cIvl2.factor : ℚ) / 1000) * 1000) ∧
    (∀ s : SrvCard, 2 ≤ s.repetitions →
      (calculate_next_review s 4).1 = pyRound ((s.interval : ℚ) * s.ease_factor))) :=
  ⟨by decide, by decide, sm2_pass_interval 0 0 0 0 4 cIvl2 (by decide) (by decide)⟩

/-- C2: for quality in [0,2] one scheduler invocation sets interval 1, ease
max(1.3, old − 0.2) (thousandths: max 1300 (old − 200)), state and queue to
learning (1), increments lapses by one and resets the remaining-steps counter
to 3, for every prior card state. -/
theorem sm2_fail_branch (t td rid el q : ℤ) (c : Card) (h0 : 0 ≤ q) (h2 : q ≤ 2) :
    (sm2Update t td rid el q c).1.ivl = 1 ∧
    (sm2Update t td rid el q c).1.factor = max 1300 (c.factor - 200) ∧
    ((sm2Update t td rid el q c).1.factor : ℚ) =
      1000 * max (13/10) ((c.factor : ℚ) / 1000 - 2/10) ∧
    (sm2Update t td rid el q c).1.type = 1 ∧
    (sm2Update t td rid el q c).1.queue = 1 ∧
    (sm2Update t td rid el q c).1.lapses = c.lapses + 1 ∧
    (sm2Update t td rid el q c).1.left = 3 := by
  have hq : q < 3 := by omega
  have hfac : (sm2Update t td rid el q c).1.factor = max 1300 (c.factor - 200) := by
    simp [sm2Update, hq, failEase_scaled]
  refine ⟨by simp [sm2Update, hq], hfac, ?_, by simp [sm2Update, hq],
    by simp [sm2Update, hq], by simp [sm2Update, hq], by simp [sm2Update, hq]⟩
  rw [hfac, Int.cast_max, mul_max_of_nonneg _ _ (by norm_num : (0:ℚ) ≤ 1000)]
  push_cast
  congr 1 <;> ring

/-- C2 witness: the spec scenario — interval 6, ease 2.5, quality 2 gives
interval 1, ease 2.3 (2300), learning state, one more lapse. -/
theorem sm2_fail_branch_witness :
    (0 : ℤ) ≤ 2 ∧ (2 : ℤ) ≤ 2 ∧
    ((sm2Update 0 0 0 0 2 cIvl2).1.ivl = 1 ∧
    (sm2Update 0 0 0 0 2 cIvl2).1.factor = max 1300 (cIvl2.factor - 200) ∧
    ((sm2Update 0 0 0 0 2 cIvl2).1.factor : ℚ) =
      1000 * max (13/10) ((cIvl2.factor : ℚ) / 1000 - 2/10) ∧
    (sm2Update 0 0 0 0 2 cIvl2).1.type = 1 ∧
    (sm2Update 0 0 0 0 2 cIvl2).1.queue = 1 ∧
    (sm2Update 0 0 0 0 2 cIvl2).1.lapses = cIvl2.lapses + 1 ∧
    (sm2Update 0 0 0 0 2 cIvl2).1.left = 3) :=
  ⟨by decide, by decide, sm2_fail_branch 0 0 0 0 2 cIvl2 (by decide) (by decide)⟩

/-- C3: after one scheduler invocation at any rating in [0,5] and from any card
state, the stored ease factor is at least 1300 thousandths, i.e. at least 1.3;
both the pass branch and the fail branch preserve the bound through their
max(1.3, ·). -/
theorem sm2_ease_lower_bound (t td rid el q : ℤ) (c : Card) (h0 : 0 ≤ q) (h5 : q ≤ 5) :
    1300 ≤ (sm2Update t td rid el q c).1.factor ∧
    (13/10 : ℚ) ≤ ((sm2Update t td rid el q c).1.factor : ℚ) / 1000 := by
  have key : 1300 ≤ (sm2Update t td rid el q c).1.factor := by
    by_cases hq : q < 3
    · simp only [sm2Update, if_pos hq]
      apply le_pyInt (by norm_num)
      calc ((1300 : ℤ) : ℚ) = (13/10) * 1000 := by norm_num
        _ ≤ failEase ((c.factor : ℚ) / 1000) * 1000 :=
            mul_le_mul_of_nonneg_right (le_max_left _ _) (by norm_num)
    · simp only [sm2Update, if_neg hq]
      apply le_pyInt (by norm_num)
      calc ((1300 : ℤ) : ℚ) = (13/10) * 1000 := by norm_num
        _ ≤ passEase q ((c.factor : ℚ) / 1000) * 1000 :=
            mul_le_mul_of_nonneg_right (le_max_left _ _) (by norm_num)
  refine ⟨key, ?_⟩
  rw [le_div_iff₀ (by norm_num : (0:ℚ) < 1000)]
  calc (13/10 : ℚ) * 1000 = ((1300 : ℤ) : ℚ) := by norm_num
    _ ≤ _ := by exact_mod_cast key

/-- C3 witness: the bound at quality 0 on the concrete card. -/
theorem sm2_ease_lower_bound_witness :
    (0 : ℤ) ≤ 0 ∧ (0 : ℤ) ≤ 5 ∧
    (1300 ≤ (sm2Update 0 0 0 0 0 cIvl2).1.factor ∧
    (13/10 : ℚ) ≤ ((sm2Update 0 0 0 0 0 cIvl2).1.factor : ℚ) / 1000) :=
  ⟨by decide, by decide, sm2_ease_lower_bound 0 0 0 0 0 cIvl2 (by decide) (by decide)⟩

/-- C10: a failing review (quality in [0,2]) leaves the repetition count
exactly unchanged — neither incremented nor reset — while a passing review
(quality in [3,5]) increments it by exactly one. -/
theorem sm2_reps_policy (t td rid el q : ℤ) (c : Card) (h0 : 0 ≤ q) (h5 : q ≤ 5) :
    (q ≤ 2 → (sm2Update t td rid el q c).1.reps = c.reps) ∧
    (3 ≤ q → (sm2Update t td rid el q c).1.reps = c.reps + 1) := by
  constructor
  · intro h
    have hq : q < 3 := by omega
    simp [sm2Update, hq]
  · intro h
    have hq : ¬ q < 3 := by omega
    simp [sm2Update, hq]

/-- C10 witness: quality 1 keeps reps at 3 on the concrete card. -/
theorem sm2_reps_policy_witness :
    (0 : ℤ) ≤ 1 ∧ (1 : ℤ) ≤ 5 ∧
    ((1 : ℤ) ≤ 2 → (sm2Update 0 0 0 0 1 cIvl2).1.reps = cIvl2.reps) ∧
    ((3 : ℤ) ≤ 1 → (sm2Update 0 0 0 0 1 cIvl2).1.reps = cIvl2.reps + 1) :=
  ⟨by decide, by decide,
    (sm2_reps_policy 0 0 0 0 1 cIvl2 (by decide) (by decide)).1,
    (sm2_reps_policy 0 0 0 0 1 cIvl2 (by decide) (by decide)).2⟩

/-- C4: `apply_sm2_algorithm` errors exactly when the rating is outside [0,5]
(InvalidRating) or the card id does not exist (NotFound); both checks precede
every write, so on either error path the database is returned unchanged, and
an in-range rating on an existing card succeeds. -/
theorem sm2_error_spec (t td rid el cardId q : ℤ) (db : Db) :
    ((applySm2 t td rid el cardId q db).2 ≠ none ↔
        q < 0 ∨ 5 < q ∨ findCard db.cards cardId = none) ∧
    ((applySm2 t td rid el cardId q db).2 ≠ none → (applySm2 t td rid el cardId q db).1 = db) ∧
    ((applySm2 t td rid el cardId q db).2 = some SchedErr.invalidRating ↔ q < 0 ∨ 5 < q) ∧
    ((applySm2 t td rid el cardId q db).2 = some SchedErr.notFound ↔
        ¬(q < 0 ∨ 5 < q) ∧ findCard db.cards cardId = none) := by
  unfold applySm2
  by_cases hq : q < 0 ∨ 5 < q
  · simp [hq]
    tauto
  · cases hfc : findCard db.cards cardId with
    | none => simp [hq, hfc]
    | some c => simp [hq, hfc]

/-- C5 counterexample: at quality 5 the logged ease code is quality+1 = 6,
which does not lie in the 1..4 range the claim asserts. -/
theorem sm2_revlog_ease_code_cex :
    (sm2Update 0 0 0 0 5 cIvl2).2.ease = 6 ∧ ¬ (sm2Update 0 0 0 0 5 cIvl2).2.ease ≤ 4 := by
  decide

/-- C5 (amended): every successful invocation appends exactly one revlog entry;
its ease code is quality+1, which lies in 1..6 (only in 1..4 for quality ≤ 3),
its interval fields record the new and the previous interval, its factor is the
new ease in thousandths, and its pass flag is 1 exactly when quality ≥ 3. -/
theorem sm2_revlog_spec (t td rid el cardId q : ℤ) (db : Db) (c : Card)
    (h0 : 0 ≤ q) (h5 : q ≤ 5) (hc : findCard db.cards cardId = some c) :
    (applySm2 t td rid el cardId q db).1.revlog
        = db.revlog ++ [(sm2Update t td rid el q c).2] ∧
    (sm2Update t td rid el q c).2.ease = q + 1 ∧
    1 ≤ q + 1 ∧ q + 1 ≤ 6 ∧
    (sm2Update t td rid el q c).2.ivl = (sm2Update t td rid el q c).1.ivl ∧
    (sm2Update t td rid el q c).2.lastIvl = c.ivl ∧
    (sm2Update t td rid el q c).2.factor = (sm2Update t td rid el q c).1.factor ∧
    ((sm2Update t td rid el q c).2.type = 1 ↔ 3 ≤ q) := by
  have hq : ¬ (q < 0 ∨ 5 < q) := by omega
  refine ⟨by simp [applySm2, hq, hc], ?_, by omega, by omega, ?_, ?_, ?_, ?_⟩ <;>
    by_cases h3 : q < 3 <;> simp [sm2Update, h3] <;> omega

/-- C5 witness: the appended entry at quality 3 on the one-card database. -/
theorem sm2_revlog_spec_witness :
    (0 : ℤ) ≤ 3 ∧ (3 : ℤ) ≤ 5 ∧ findCard dbNoSep.cards 1 = some cardNew ∧
    ((applySm2 0 0 0 0 1 3 dbNoSep).1.revlog
        = dbNoSep.revlog ++ [(sm2Update 0 0 0 0 3 cardNew).2] ∧
    (sm2Update 0 0 0 0 3 cardNew).2.ease = 3 + 1 ∧
    1 ≤ (3 : ℤ) + 1 ∧ (3 : ℤ) + 1 ≤ 6 ∧
    (sm2Update 0 0 0 0 3 cardNew).2.ivl = (sm2Update 0 0 0 0 3 cardNew).1.ivl ∧
    (sm2Update 0 0 0 0 3 cardNew).2.lastIvl = cardNew.ivl ∧
    (sm2Update 0 0 0 0 3 cardNew).2.factor = (sm2Update 0 0 0 0 3 cardNew).1.factor ∧
    ((sm2Update 0 0 0 0 3 cardNew).2.type = 1 ↔ 3 ≤ (3 : ℤ))) :=
  ⟨by decide, by decide, by decide,
    sm2_revlog_spec 0 0 0 0 1 3 dbNoSep cardNew (by decide) (by decide) (by decide)⟩

/-- C9: a successful invocation leaves the collection row and the notes table
unchanged, rewrites the cards table pointwise so that every row keeps its
identity fields (id, nid, did, ord) and every non-reviewed row is fully
unchanged, and appends exactly one entry to the review log. -/
theorem sm2_frame (t td rid el cardId q : ℤ) (db : Db)
    (h0 : 0 ≤ q) (h5 : q ≤ 5) (hc : (findCard db.cards cardId).isSome = true) :
    (applySm2 t td rid el cardId q db).1.col = db.col ∧
    (applySm2 t td rid el cardId q db).1.notes = db.notes ∧
    List.Forall₂ (fun x x' : Card =>
        x'.id = x.id ∧ x'.nid = x.nid ∧ x'.did = x.did ∧ x'.ord = x.ord ∧
        x'.usn = x.usn ∧ x'.odue = x.odue ∧ x'.odid = x.odid ∧
        x'.flags = x.flags ∧ x'.data = x.data ∧
        (x.id ≠ cardId → x' = x))
      db.cards (applySm2 t td rid el cardId q db).1.cards ∧
    (∃ e, (applySm2 t td rid el cardId q db).1.revlog = db.revlog ++ [e]) := by
  have hq : ¬ (q < 0 ∨ 5 < q) := by omega
  obtain ⟨c, hfc⟩ := Option.isSome_iff_exists.mp hc
  refine ⟨by simp [applySm2, hq, hfc], by simp [applySm2, hq, hfc], ?_,
    ⟨(sm2Update t td rid el q c).2, by simp [applySm2, hq, hfc]⟩⟩
  have hcards : (applySm2 t td rid el cardId q db).1.cards
      = db.cards.map (fun x =>
          if x.id == cardId then applySchedCols (sm2Update t td rid el q c).1 x else x) := by
    simp [applySm2, hq, hfc]
  rw [hcards, List.forall₂_map_right_iff, List.forall₂_same]
  intro x _
  by_cases hid : x.id = cardId
  · simp [hid, applySchedCols]
  · simp [hid, applySchedCols]

/-- C9 witness: a successful review of the single card of the concrete
database at quality 4. -/
theorem sm2_frame_witness :
    (0 : ℤ) ≤ 4 ∧ (4 : ℤ) ≤ 5 ∧ (findCard dbNoSep.cards 1).isSome = true ∧
    ((applySm2 0 0 0 0 1 4 dbNoSep).1.col = dbNoSep.col ∧
    (applySm2 0 0 0 0 1 4 dbNoSep).1.notes = dbNoSep.notes ∧
    List.Forall₂ (fun x x' : Card =>
        x'.id = x.id ∧ x'.nid = x.nid ∧ x'.did = x.did ∧ x'.ord = x.ord ∧
        x'.usn = x.usn ∧ x'.odue = x.odue ∧ x'.odid = x.odid ∧
        x'.flags = x.flags ∧ x'.data = x.data ∧
        (x.id ≠ 1 → x' = x))
      dbNoSep.cards (applySm2 0 0 0 0 1 4 dbNoSep).1.cards ∧
    (∃ e, (applySm2 0 0 0 0 1 4 dbNoSep).1.revlog = dbNoSep.revlog ++ [e])) :=
  ⟨by decide, by decide, by decide,
    sm2_frame 0 0 0 0 1 4 dbNoSep (by decide) (by decide) (by decide)⟩

/-- C6 counterexample: a new-queue card whose note's field blob has no
separator is dropped by `get_cards_due_today`, although the claim says every
new-queue card is returned. -/
theorem due_cards_dropped_note_cex :
    cardNew ∈ dbNoSep.cards ∧ cardNew.queue = 0 ∧ get_cards_due_today 0 dbNoSep = [] := by
  decide

/-- C6 (amended): `get_cards_due_today` returns exactly the cards in the new
queue (queue 0) plus the review-queue cards (queue 2) due on or before the
given day, each joined to a note with the card's note id — but only those
whose note's field blob splits into at least two separator-delimited parts;
each result pairs the card id with the first two parts.  Learning-queue cards
and later-due review cards never appear. -/
theorem due_cards_spec (today : ℤ) (db : Db) (r : DueCard) :
    r ∈ get_cards_due_today today db ↔
      ∃ c ∈ db.cards, ∃ n ∈ db.notes,
        n.id = c.nid ∧ (c.queue = 0 ∨ (c.queue = 2 ∧ c.due ≤ today)) ∧
        ∃ qf af rest, pySplit fieldSep n.flds.data = qf :: af :: rest ∧
          r = ⟨c.id, qf, af⟩ := by
  unfold get_cards_due_today dueRows
  rw [List.mem_filterMap]
  constructor
  · rintro ⟨p, hp, hf⟩
    rw [List.mem_flatMap] at hp
    obtain ⟨c, hc, hpc⟩ := hp
    by_cases hcond : c.queue = 0 ∨ (c.queue = 2 ∧ c.due ≤ today)
    · rw [if_pos hcond, List.mem_map] at hpc
      obtain ⟨n, hn, rfl⟩ := hpc
      rw [List.mem_filter] at hn
      obtain ⟨hn1, hn2⟩ := hn
      refine ⟨c, hc, n, hn1, by simpa using hn2, hcond, ?_⟩
      simp only at hf
      cases hsp : pySplit fieldSep n.flds.data with
      | nil => rw [hsp] at hf; simp at hf
      | cons qf rest1 =>
        cases rest1 with
        | nil => rw [hsp] at hf; simp at hf
        | cons af rest =>
          rw [hsp] at hf
          simp only [Option.some.injEq] at hf
          exact ⟨qf, af, rest, rfl, hf.symm⟩
    · rw [if_neg hcond] at hpc
      simp at hpc
  · rintro ⟨c, hc, n, hn, hid, hcond, qf, af, rest, hsp, rfl⟩
    refine ⟨(c.id, n.flds), ?_, ?_⟩
    · rw [List.mem_flatMap]
      refine ⟨c, hc, ?_⟩
      rw [if_pos hcond, List.mem_map]
      exact ⟨n, List.mem_filter.mpr ⟨hn, by simpa using hid⟩, rfl⟩
    · simp only
      rw [hsp]

/-- C7 counterexample: two `add_model` calls inside the same millisecond (both
at timestamp 100) return the same model id, and the second model document
overwrites the first — only the second model is present afterwards. -/
theorem add_model_same_ms_cex :
    addFirst.1 = addSecond.1 ∧
    addSecond.2.models.map (fun p => p.2.name) = ["M2"] := by
  decide

/-- C7 (amended): two `add_model` invocations with identical name, fields and
templates but distinct millisecond timestamps return distinct model ids and
both model documents are present afterwards (no deduplication, no overwrite);
within the same millisecond the ids collide and the second call overwrites the
first model document. -/
theorem add_model_distinct_ms (t1 t2 s1 s2 : ℤ) (name : String)
    (fields : List String) (templates : List TmplIn) (col : Col)
    (hne : t1 ≠ t2) :
    (add_model t1 s1 name fields templates col).1 ≠
      (add_model t2 s2 name fields templates
        (add_model t1 s1 name fields templates col).2).1 ∧
    dictFind t1 (add_model t2 s2 name fields templates
        (add_model t1 s1 name fields templates col).2).2.models
      = some (buildModel t1 s1 name fields templates) ∧
    dictFind t2 (add_model t2 s2 name fields templates
        (add_model t1 s1 name fields templates col).2).2.models
      = some (buildModel t2 s2 name fields templates) := by
  refine ⟨by simpa [add_model] using hne, ?_, ?_⟩
  · simp only [add_model]
    rw [dictFind_dictInsert_ne t1 t2 hne, dictFind_dictInsert_self]
  · simp only [add_model]
    rw [dictFind_dictInsert_self]

/-- C7 witness: timestamps 100 and 101 on the empty collection. -/
theorem add_model_distinct_ms_witness :
    (100 : ℤ) ≠ 101 ∧
    ((add_model 100 0 "M" ["Question", "Answer"] [tmplQA] colEmpty).1 ≠
      (add_model 101 0 "M" ["Question", "Answer"] [tmplQA]
        (add_model 100 0 "M" ["Question", "Answer"] [tmplQA] colEmpty).2).1 ∧
    dictFind 100 (add_model 101 0 "M" ["Question", "Answer"] [tmplQA]
        (add_model 100 0 "M" ["Question", "Answer"] [tmplQA] colEmpty).2).2.models
      = some (buildModel 100 0 "M" ["Question", "Answer"] [tmplQA]) ∧
    dictFind 101 (add_model 101 0 "M" ["Question", "Answer"] [tmplQA]
        (add_model 100 0 "M" ["Question", "Answer"] [tmplQA] colEmpty).2).2.models
      = some (buildModel 101 0 "M" ["Question", "Answer"] [tmplQA])) :=
  ⟨by decide,
    add_model_distinct_ms 100 101 0 0 "M" ["Question", "Answer"] [tmplQA] colEmpty (by decide)⟩

/-- C8: evaluation of both exporters on a collection with exactly one
referenced media file.  `AnkiFlashcardApp.export_apkg` produces exactly the 3
claimed entries with distinct names, the manifest mapping "0" to the original
filename; `AnkiSM2.export_to_apkg` instead re-adds every staged file, yielding
5 entries in which the collection entry and the manifest entry each occur
twice — the buggy divergence behind the code_bug verdict. -/
theorem export_apkg_media_eval :
    export_apkg "db" [("image.jpg", [1])]
      = [("collection.anki2", ZEntry.dbFile "db"),
         ("media", ZEntry.manifest [("0", "image.jpg")]),
         ("0", ZEntry.media [1])] ∧
    ((export_apkg "db" [("image.jpg", [1])]).map Prod.fst).Nodup ∧
    export_to_apkg "db" oneMediaRow
      = [("collection.anki2", ZEntry.dbFile "db"),
         ("media", ZEntry.manifest [("0", "image.jpg")]),
         ("collection.anki2", ZEntry.dbFile "db"),
         ("media", ZEntry.manifest [("0", "image.jpg")]),
         ("0", ZEntry.media [1])] ∧
    (export_to_apkg "db" oneMediaRow).length = 5 ∧
    ¬ ((export_to_apkg "db" oneMediaRow).map Prod.fst).Nodup := by
  decide

end AnkiRest
